import Mathlib

/-!
Verification of the position-lifecycle / settlement engine of
`crypto_watch_mac_popup.py` against its natural-language specification.

Shallow embedding conventions:
* Python floats are modelled as exact rationals (`ℚ`).  `_floor_to_step`
  uses `Decimal` arithmetic in the source, which rationals model exactly;
  the remaining arithmetic is modelled as ideal real arithmetic on `ℚ`.
* Module-level mutable state (`SYMAP`, `_TRAINED_POS_UIDS`,
  `_LAST_CLOSE_TS`, the two `Account` objects, ...) is gathered into an
  explicit `EngineState` record and every stateful function becomes a
  state transformer.
* External effects (exchange REST calls, wall clock) are passed in as an
  explicit environment (`CloseEnv`): the average fill price returned by
  the reduce-only market close and the commission returned by
  `fetch_commission_usdt` are oracle inputs, `none` modelling the
  exception path.
* Python `dict`s become association lists updated in place
  (`setSym` / first-match `List.lookup`), Python `set`s become lists
  with membership.
-/

namespace Crypto

/-- Python `str.upper()` (ASCII arguments only in this program). -/
def strUpper (s : String) : String := ⟨s.data.map Char.toUpper⟩

/-! ## Global constants (source lines 240-242, 296-304, 3322-3323) -/

/-- `TAKER_FEE_PCT = 0.04` (line 304). -/
def TAKER_FEE_PCT : ℚ := 4/100

/-- `LEVERAGE = 10` (line 303). -/
def LEVERAGE : ℚ := 10

/-- `RISK_PER_TRADE_PCT = 2` (line 302). -/
def RISK_PER_TRADE_PCT : ℚ := 2

/-- `LOSS_STREAK_LIMIT = 3` (line 3322). -/
def LOSS_STREAK_LIMIT : ℕ := 3

/-! ## `_floor_to_step` (lines 62-68)

`(v / s).quantize(Decimal('1'), rounding=ROUND_DOWN) * s`: `ROUND_DOWN`
truncates toward zero, so the quotient is floored when non-negative and
ceiled when negative.  `Decimal(str(x))` arithmetic is exact, hence the
rational model is faithful. -/

def floor_to_step (value step : ℚ) : ℚ :=
  let r := value / step
  (if 0 ≤ r then (⌊r⌋ : ℚ) else (⌈r⌉ : ℚ)) * step

/-! ## `compute_qty` (lines 2420-2451)

Globals read by the function (`POSITION_SIZING`, `LEVERAGE`, `ALLOC_PCT`,
`RISK_PER_TRADE_PCT`) are gathered in a configuration record;
`ACCOUNT_LIVE._available` (line 2428) becomes the `liveAvail` oracle
(`none` = "not yet synced", falling back to the account balance). -/

structure SizingCfg where
  sizing : String
  leverage : ℚ
  allocPct : ℚ
  riskPerTradePct : ℚ
  deriving DecidableEq, Repr

def compute_qty (cfg : SizingCfg) (whichIsLive : Bool) (liveAvail : Option ℚ)
    (balance : ℚ) (entry sl : ℚ) (riskPctOverride : Option ℚ) : ℚ :=
  if entry ≤ 0 then 0
  else
    -- line 2428-2431: available-margin estimate
    let availMargin := if whichIsLive then liveAvail.getD balance else balance
    -- line 2433
    let maxNotionalByMargin := max 0 availMargin * max cfg.leverage 0 * (95/100)
    if strUpper cfg.sizing = "ALLOC" then
      -- lines 2435-2439
      let allocMargin := balance * max cfg.allocPct 0 / 100
      let targetNotional := allocMargin * max cfg.leverage 0
      let notional := min targetNotional maxNotionalByMargin
      max (notional / entry) 0
    else
      -- lines 2441-2451: RISK mode
      let dist := |entry - sl|
      if dist ≤ 0 then 0
      else
        let riskPct := riskPctOverride.getD cfg.riskPerTradePct
        let riskCap := balance * max riskPct 0 / 100
        let notionalRisk := riskCap * entry / dist
        let notional := min notionalRisk maxNotionalByMargin
        max (notional / entry) 0

/-- The risk budget `risk_cap = acc.balance * max(risk_pct, 0.0) / 100.0`
(line 2447), exposed for the sizing arithmetic claims. -/
def risk_cap (balance riskPct : ℚ) : ℚ := balance * max riskPct 0 / 100

/-! ## ML-probability risk scaling in `place_order_one` (lines 2752-2764)

When AI decisions are active and a model probability `ml_p` is present:
reject if `ml_p <= th`, otherwise
`gain = (ml_p - th) / max(1e-9, 1 - th)` and
`per_trade_risk = base * (1 + min(1, 1.5 * gain))`.
`none` models the `filtered_by_p` early return. -/

def ml_scaled_risk_pct (basePct th p : ℚ) : Option ℚ :=
  if p ≤ th then none
  else
    let gain := (p - th) / max (1/1000000000) (1 - th)
    some (basePct * (1 + min 1 ((3/2) * gain)))

/-! ## Reconciliation network backoff (lines 240-242, 1414-1443)

`sync_live_positions_periodic`: on a transport failure
`_NET_BACKOFF_UNTIL = now + _NET_BACKOFF_STEP` and
`_NET_BACKOFF_STEP = min(_NET_BACKOFF_MAX, _NET_BACKOFF_STEP * 1.7)`;
on success `_NET_BACKOFF_UNTIL = 0.0; _NET_BACKOFF_STEP = 60.0`. -/

def NET_BACKOFF_MAX : ℚ := 5 * 60

structure BackoffState where
  untilTs : ℚ
  step : ℚ
  deriving DecidableEq, Repr

/-- Initial globals `_NET_BACKOFF_UNTIL = 0.0`, `_NET_BACKOFF_STEP = 60.0`
(lines 240-241). -/
def backoffInit : BackoffState := { untilTs := 0, step := 60 }

/-- Lines 1436-1437 (the `RequestException` branch). -/
def backoffOnFailure (now : ℚ) (b : BackoffState) : BackoffState :=
  { untilTs := now + b.step, step := min NET_BACKOFF_MAX (b.step * (17/10)) }

/-- Lines 1431-1432 (the success branch). -/
def backoffOnSuccess (_b : BackoffState) : BackoffState :=
  { untilTs := 0, step := 60 }

/-- Backoff state after `n` consecutive failures (the timestamps are
irrelevant to the step evolution, so the failure time is fixed at 0).
`(backoffIter n).step` is the wait window granted by the `n`-th
(0-indexed) consecutive failure. -/
def backoffIter : ℕ → BackoffState
  | 0 => backoffInit
  | n + 1 => backoffOnFailure 0 (backoffIter n)

/-! ## `MLManager.record_close` labelling (lines 2162-2177)

`r_like = move_pct / 0.0012` when a `ret_pct_on_notional` is passed
(`close_position_one` passes `net_pct_on_notional / 100`, i.e. a
fraction), otherwise `±1` from the cash-PnL sign; the training label is
`1` if `r_like >= 1`, `0` if `r_like <= -1`, else the cash-PnL sign. -/

def R_UNIT : ℚ := 12/10000

def r_like (pnlCash : ℚ) (retPct : Option ℚ) : ℚ :=
  match retPct with
  | some movePct => movePct / R_UNIT
  | none => if 0 < pnlCash then 1 else -1

def record_close_label (pnlCash : ℚ) (retPct : Option ℚ) : Bool :=
  let r := r_like pnlCash retPct
  if 1 ≤ r then true
  else if r ≤ -1 then false
  else 0 < pnlCash

/-! ## Data model for the settlement engine

`Position` models the position dict created by `_local_open`
(lines 2455-2467); `Account` the `Account` class (lines 1539-1555,
`daily_start_equity` starts as `None`); `SymState` the two position
slots of `SymbolState` (lines 2281-...); `EngineState` gathers the
module-level mutable state touched by `close_position_one`. -/

structure Position where
  side : String
  qty : ℚ
  entry : ℚ
  sl : Option ℚ
  tp : Option ℚ
  opened_ts : Option ℕ
  risk_R : Option ℚ
  pos_uid : Option String
  deriving DecidableEq, Repr

structure TradeRecord where
  ts : ℕ
  symbol : String
  side : String
  entry : ℚ
  exit : ℚ
  qty : ℚ
  pnl_cash : ℚ
  net_pct : ℚ
  fee_usdt : ℚ
  risk_R : ℚ
  pos_uid : String
  reason : String
  deriving DecidableEq, Repr

structure Account where
  balance : ℚ
  daily_start_equity : Option ℚ
  daily_pnl : ℚ
  total_pnl : ℚ
  trades : List TradeRecord
  deriving DecidableEq, Repr

structure SymState where
  position_live : Option Position
  position_sim : Option Position
  deriving DecidableEq, Repr

def SymState.empty : SymState := { position_live := none, position_sim := none }

/-- The module-level mutable state read/written by `close_position_one`:
the two accounts, `SYMAP`, `_TRAINED_POS_UIDS` (line 53),
`_LAST_CLOSE_TS` (line 700), `OPEN_INFLIGHT`, the `ML.record_close`
call log (one entry per training hand-off, lines 3230-3237, arguments
`(which, symbol, net_pnl, net_pct/100)`), and the per-symbol
consecutive-loss counters (lines 3268-3277). -/
structure EngineState where
  accLive : Account
  accSim : Account
  symap : List (String × SymState)
  trainedUids : List String
  lastCloseTs : List ((String × String) × ℕ)
  openInflight : List String
  mlCloses : List (String × String × ℚ × ℚ)
  lossStreak : List (String × ℕ)
  suspendedSyms : List String
  deriving DecidableEq, Repr

/-! ### Dictionary helpers (`SYMAP[...]`, `dict.get`) -/

def getSym (m : List (String × SymState)) (sym : String) : SymState :=
  (m.lookup sym).getD SymState.empty

def setSym (m : List (String × SymState)) (sym : String) (st : SymState) :
    List (String × SymState) :=
  match m with
  | [] => [(sym, st)]
  | (k, v) :: rest => if k = sym then (k, st) :: rest else (k, v) :: setSym rest sym st

def lookupNat (m : List ((String × String) × ℕ)) (k : String × String) : ℕ :=
  (m.lookup k).getD 0

def lookupStreak (m : List (String × ℕ)) (k : String) : ℕ :=
  (m.lookup k).getD 0

def setStreak (m : List (String × ℕ)) (k : String) (v : ℕ) : List (String × ℕ) :=
  match m with
  | [] => [(k, v)]
  | (k0, v0) :: rest => if k0 = k then (k0, v) :: rest else (k0, v0) :: setStreak rest k v

/-- `_get_pos` (lines 2393-2394). -/
def getPos (st : SymState) (which : String) : Option Position :=
  if strUpper which = "LIVE" then st.position_live else st.position_sim

/-- `_set_pos` (lines 2396-2400). -/
def setPos (st : SymState) (which : String) (p : Option Position) : SymState :=
  if strUpper which = "LIVE" then { st with position_live := p }
  else { st with position_sim := p }

/-- `get_account` (lines 1723-1724): LIVE on exact match, else SIM. -/
def getAccount (s : EngineState) (which : String) : Account :=
  if strUpper which = "LIVE" then s.accLive else s.accSim

def setAccount (s : EngineState) (which : String) (a : Account) : EngineState :=
  { s with
    accLive := if strUpper which = "LIVE" then a else s.accLive
    accSim := if strUpper which = "LIVE" then s.accSim else a }

/-! ### `_close_too_soon` (lines 795-806)

Key `(which.upper(), symbol.upper())`; returns `True` (debounced,
no write) when `now - last < min_ms`, else records `now` and returns
`False`.  Python computes `now - last` over ℤ but `now ≥ 0` and a
negative difference is `< min_ms` exactly when the ℕ-truncated
difference is, so ℕ subtraction is faithful. -/

def close_too_soon (which symbol : String) (minMs : ℕ) (now : ℕ)
    (m : List ((String × String) × ℕ)) : Bool × List ((String × String) × ℕ) :=
  let key := (strUpper which, strUpper symbol)
  let last := lookupNat m key
  if now - last < minMs then (true, m)
  else (false, (key, now) :: m)

/-! ### `close_position_one` (lines 3060-3277) -/

/-- External inputs of one settlement call: the wall clock (`utc_ms()`),
the average fill price returned by `_live_reduce_only_market_close`
(line 3091-3094; `none` = the call raised), and the commission returned
by `fetch_commission_usdt` (line 3117; `none` = the fetch raised, which
line 3126 turns into `0.0` for LIVE). -/
structure CloseEnv where
  now : ℕ
  liveFillPx : Option ℚ
  liveFee : Option ℚ
  deriving DecidableEq, Repr

/-- Line 3071: `p.get("pos_uid") or f"{which}:{symbol}:{p.get('entry')}:{p.get('qty')}"`
(`or` treats the empty string as missing). -/
def fallbackUid (which symbol : String) (p : Position) : String :=
  which ++ ":" ++ symbol ++ ":" ++ toString p.entry ++ ":" ++ toString p.qty

def effUid (which symbol : String) (p : Position) : String :=
  match p.pos_uid with
  | some u => if u = "" then fallbackUid which symbol p else u
  | none => fallbackUid which symbol p

/-- Line 3075: `f"{which}:{symbol}:{p['entry']}:{p['qty']}:{utc_ms()}"`. -/
def remintUid (which symbol : String) (p : Position) (now : ℕ) : String :=
  fallbackUid which symbol p ++ ":" ++ toString now

/-- Python `round(x, d)` on the record fields (lines 3146-3151), modelled
as exact decimal rounding of the rational value. -/
def roundDp (d : ℕ) (q : ℚ) : ℚ := (round (q * (10 : ℚ) ^ d) : ℚ) / (10 : ℚ) ^ d

/-- The exit price actually settled: LIVE (unless `skip_exchange`)
adopts the exchange average fill price when positive (lines 3089-3097),
otherwise the supplied reference price. -/
def settlePx (env : CloseEnv) (which : String) (skipExchange : Bool) (px0 : ℚ) : ℚ :=
  if strUpper which = "LIVE" ∧ ¬skipExchange then
    match env.liveFillPx with
    | some ap => if 0 < ap then ap else px0
    | none => px0
  else px0

/-- Lines 3100-3101. -/
def grossPnl (p : Position) (px : ℚ) : ℚ :=
  p.qty * (px - p.entry) * (if p.side = "LONG" then 1 else -1)

/-- Lines 3104-3126: LIVE uses the fetched commission (0 on failure),
SIM uses the two-sided taker estimate. -/
def settleFee (env : CloseEnv) (which : String) (p : Position) : ℚ :=
  let estFee := TAKER_FEE_PCT / 100 * (p.qty * p.entry * 2)
  if strUpper which = "LIVE" then env.liveFee.getD 0 else estFee

def settleNetPnl (env : CloseEnv) (which : String) (skipExchange : Bool)
    (px0 : ℚ) (p : Position) : ℚ :=
  grossPnl p (settlePx env which skipExchange px0) - settleFee env which p

/-- Lines 3129-3130. -/
def settleNetPct (env : CloseEnv) (which : String) (skipExchange : Bool)
    (px0 : ℚ) (p : Position) : ℚ :=
  let notional := p.qty * p.entry
  if 0 < notional then settleNetPnl env which skipExchange px0 p / notional * 100 else 0

/-- The trade record appended by the settlement (lines 3142-3155). -/
def settleRecord (env : CloseEnv) (symbol reason : String) (px0 : ℚ)
    (which : String) (skipExchange : Bool) (p : Position) (uid : String) :
    TradeRecord :=
  { ts := env.now, symbol := symbol, side := p.side
    entry := roundDp 6 p.entry
    exit := roundDp 6 (settlePx env which skipExchange px0)
    qty := roundDp 8 p.qty
    pnl_cash := roundDp 2 (settleNetPnl env which skipExchange px0 p)
    net_pct := roundDp 3 (settleNetPct env which skipExchange px0 p)
    fee_usdt := roundDp 6 (settleFee env which p)
    risk_R := p.risk_R.getD 0
    pos_uid := uid
    reason := reason ++ " (" ++ which ++ ")" }

/-- The ledger update of lines 3132-3155: `total_pnl` always accrues
the net PnL; balance and daily PnL move only when the account is SIM;
the trade record is appended. -/
def applyLedger (which : String) (netPnl : ℚ) (tr : TradeRecord) (a : Account) :
    Account :=
  let a := { a with total_pnl := a.total_pnl + netPnl }
  let a := if strUpper which = "SIM" then
      { a with balance := a.balance + netPnl, daily_pnl := a.daily_pnl + netPnl }
    else a
  { a with trades := a.trades ++ [tr] }

/-- The full settlement body that runs once the debounce and the UID
dedup admit the call (lines 3080-3277), with `uid` the id stored into
`_TRAINED_POS_UIDS` and into the trade record.  `s` already carries the
debounce-timestamp write of line 805. -/
def settleCore (env : CloseEnv) (symbol reason : String) (px0 : ℚ)
    (which : String) (skipExchange : Bool) (p : Position) (uid : String)
    (s : EngineState) : EngineState :=
  let netPnl := settleNetPnl env which skipExchange px0 p
  let netPct := settleNetPct env which skipExchange px0 p
  -- line 3080: _TRAINED_POS_UIDS.add(pos_uid)
  let s := { s with trainedUids := uid :: s.trainedUids }
  -- lines 3132-3155: ledger update + record append
  let s := setAccount s which
    (applyLedger which netPnl (settleRecord env symbol reason px0 which skipExchange p uid)
      (getAccount s which))
  -- line 3223: clear the position
  let s := { s with
    symap := setSym s.symap symbol (setPos (getSym s.symap symbol) which none) }
  -- lines 3224-3228: LIVE releases the in-flight marker
  let s := { s with
    openInflight :=
      if strUpper which = "LIVE" then s.openInflight.erase symbol
      else s.openInflight }
  -- lines 3230-3237: hand the outcome to ML.record_close
  let s := { s with mlCloses := s.mlCloses ++ [(which, symbol, netPnl, netPct / 100)] }
  -- lines 3268-3277: consecutive-loss tracking (streak+1 and suspension
  -- check on a loss, streak reset on a win; written field-wise)
  let streak := lookupStreak s.lossStreak symbol + 1
  { s with
    lossStreak :=
      setStreak s.lossStreak symbol (if netPnl ≤ 0 then streak else 0)
    suspendedSyms :=
      if netPnl ≤ 0 ∧ LOSS_STREAK_LIMIT ≤ streak then symbol :: s.suspendedSyms
      else s.suspendedSyms }

/-- `close_position_one(symbol, reason, px, which, skip_exchange)`
(lines 3060-3277).  Control flow: debounce (line 3064, which records the
call timestamp when admitted), empty-position early return (line 3067),
UID dedup (lines 3070-3080: an already-settled uid is re-minted and
fully re-settled when the stored position still has nonzero qty and
entry, otherwise only the position is cleared), then the settlement
body. -/
def close_position_one (env : CloseEnv) (symbol reason : String) (px0 : ℚ)
    (which : String) (skipExchange : Bool) (s : EngineState) : EngineState :=
  let db := close_too_soon which symbol 600 env.now s.lastCloseTs
  if db.1 then s
  else
    let s1 : EngineState := { s with lastCloseTs := db.2 }
    match getPos (getSym s.symap symbol) which with
    | none => s1
    | some p =>
      let uid := effUid which symbol p
      if uid ∈ s1.trainedUids then
        if p.qty ≠ 0 ∧ p.entry ≠ 0 then
          -- line 3075: stale uid on a live-looking position: re-mint and settle
          settleCore env symbol reason px0 which skipExchange p
            (remintUid which symbol p env.now) s1
        else
          -- lines 3077-3079: dup close -> local cleanup only
          { s1 with
            symap := setSym s1.symap symbol
              (setPos (getSym s1.symap symbol) which none) }
      else
        settleCore env symbol reason px0 which skipExchange p uid s1

/-! ## SIM-state persistence (`snapshot_sim_state` lines 1574-1603,
`restore_sim_state` lines 1658-1712)

`persist_sim_state` serialises `snapshot_sim_state()` to disk and
`restore_sim_state` reads it back; the round trip through JSON is the
identity on the snapshot record, so the composition is modelled as
`restore_sim_state (snapshot_sim_state s) s`. -/

/-- One entry of the snapshot's `positions` map (lines 1582-1588). -/
structure SimSnapPos where
  side : String
  qty : ℚ
  entry : ℚ
  sl : Option ℚ
  tp : Option ℚ
  deriving DecidableEq, Repr

/-- The versioned snapshot record (lines 1589-1602). -/
structure SimSnapshot where
  ver : ℕ
  ts : ℕ
  balance : ℚ
  daily_start_equity : ℚ
  daily_pnl : ℚ
  total_pnl : ℚ
  trades : List TradeRecord
  positions : List (String × SimSnapPos)
  deriving DecidableEq, Repr

/-- `float(p.get("sl", 0.0)) if p.get("sl") else None` (lines 1586-1587,
1697-1698): Python truthiness maps both a missing stop and a stop of
exactly 0.0 to `None`. -/
def truthyOpt (o : Option ℚ) : Option ℚ :=
  match o with
  | some x => if x = 0 then none else some x
  | none => none

/-- `ACCOUNT_SIM.trades[-500:]` (line 1598). -/
def takeLast (n : ℕ) (l : List TradeRecord) : List TradeRecord :=
  l.drop (l.length - n)

/-- The per-position snapshot entry (lines 1582-1588). -/
def snapView (p : Position) : SimSnapPos :=
  { side := p.side, qty := p.qty, entry := p.entry
    sl := truthyOpt p.sl, tp := truthyOpt p.tp }

def snapshot_sim_state (now : ℕ) (s : EngineState) : SimSnapshot :=
  { ver := 1
    ts := now
    balance := s.accSim.balance
    -- line 1594: `ACCOUNT_SIM.daily_start_equity or ACCOUNT_SIM.balance`
    daily_start_equity :=
      match s.accSim.daily_start_equity with
      | some x => if x = 0 then s.accSim.balance else x
      | none => s.accSim.balance
    daily_pnl := s.accSim.daily_pnl
    total_pnl := s.accSim.total_pnl
    trades := takeLast 500 s.accSim.trades
    positions := s.symap.filterMap fun kv =>
      kv.2.position_sim.map fun p => (kv.1, snapView p) }

/-- The position dict rebuilt by `restore_sim_state` (lines 1693-1700):
only side/qty/entry/sl/tp (+ `trail = None`) survive; `opened_ts`,
`risk_R` and `pos_uid` are absent from the restored dict. -/
def snapPosToPosition (sp : SimSnapPos) : Position :=
  { side := sp.side, qty := sp.qty, entry := sp.entry
    sl := truthyOpt sp.sl, tp := truthyOpt sp.tp
    opened_ts := none, risk_R := none, pos_uid := none }

def restorePositions (m : List (String × SymState))
    (ps : List (String × SimSnapPos)) : List (String × SymState) :=
  ps.foldl
    (fun acc kv =>
      setSym acc kv.1
        { getSym acc kv.1 with position_sim := some (snapPosToPosition kv.2) })
    m

def restore_sim_state (d : SimSnapshot) (s : EngineState) : EngineState :=
  { s with
    accSim :=
      { balance := d.balance
        daily_start_equity := some d.daily_start_equity
        daily_pnl := d.daily_pnl
        total_pnl := d.total_pnl
        trades := d.trades }
    symap := restorePositions s.symap d.positions }

/-- The observation the round-trip claim compares per symbol: the
(side, qty, entry, stop, target) view of the open SIM position. -/
def simPosView (s : EngineState) (sym : String) :
    Option (String × ℚ × ℚ × Option ℚ × Option ℚ) :=
  (getSym s.symap sym).position_sim.map fun p =>
    (p.side, p.qty, p.entry, p.sl, p.tp)

/-! # Theorems

The `Rat` arithmetic primitives of the standard library are sealed; the
concrete-state evaluations below need them reducible. -/

unseal Rat.add Rat.mul Rat.sub Rat.inv

/-! ## C4 — sizing example and step-floor monotonicity -/

/-- C4: in risk sizing mode with entry=100, stop=98, riskPct=2,
balance=10000, leverage=10, `compute_qty` uses a risk budget of 200 and
notional 200×100/2 = 10000 and returns quantity 100 (the margin cap
10000×10×0.95 = 95000 not binding); flooring a raw quantity of 100.004
to step 0.01 yields exactly 100.00, and the step-floor never rounds a
non-negative quantity up. -/
theorem compute_qty_sizing_example_and_step_floor :
    risk_cap 10000 2 = 200 ∧
    risk_cap 10000 2 * 100 / |100 - 98| = (10000 : ℚ) ∧
    compute_qty { sizing := "RISK", leverage := 10, allocPct := 15, riskPerTradePct := 2 }
      false none 10000 100 98 none = 100 ∧
    floor_to_step (100004/1000) (1/100) = 100 ∧
    (∀ v s : ℚ, 0 ≤ v → 0 < s → floor_to_step v s ≤ v) := by
  refine ⟨by decide, by decide, by decide, by decide, ?_⟩
  intro v s hv hs
  have hr : 0 ≤ v / s := div_nonneg hv hs.le
  simp only [floor_to_step, if_pos hr]
  calc (⌊v / s⌋ : ℚ) * s ≤ v / s * s :=
        mul_le_mul_of_nonneg_right (Int.floor_le _) hs.le
    _ = v := div_mul_cancel₀ v hs.ne.symm

/-- Witness for C4: the step-floor bound applied at the concrete raw
quantity 100.004 with step 0.01. -/
theorem compute_qty_sizing_example_and_step_floor_witness :
    floor_to_step (100004/1000) (1/100) ≤ 100004/1000 :=
  compute_qty_sizing_example_and_step_floor.2.2.2.2 (100004/1000) (1/100)
    (by norm_num) (by norm_num)

/-! ## C10 — `compute_qty` is total and non-negative -/

/-- C10: `compute_qty` always returns a quantity ≥ 0; it returns exactly
0 when `entry ≤ 0`, and, in risk mode (any sizing string other than
"ALLOC"), when the stop distance `|entry − stop|` is 0 — so the
divisions by `entry` and by the stop distance are never reached with a
zero divisor. -/
theorem compute_qty_total_nonneg (cfg : SizingCfg) (whichIsLive : Bool)
    (liveAvail : Option ℚ) (balance entry sl : ℚ) (ro : Option ℚ) :
    0 ≤ compute_qty cfg whichIsLive liveAvail balance entry sl ro ∧
    (entry ≤ 0 → compute_qty cfg whichIsLive liveAvail balance entry sl ro = 0) ∧
    (strUpper cfg.sizing ≠ "ALLOC" → |entry - sl| = 0 →
      compute_qty cfg whichIsLive liveAvail balance entry sl ro = 0) := by
  refine ⟨?_, ?_, ?_⟩
  · simp only [compute_qty]
    split_ifs <;> first | exact le_refl 0 | exact le_max_right _ _
  · intro h
    simp only [compute_qty, if_pos h]
  · intro hmode hdist
    have hle : |entry - sl| ≤ 0 := le_of_eq hdist
    simp only [compute_qty]
    -- `split_ifs` resolves the ALLOC and the distance conditions from
    -- `hmode` and `hle`, leaving only `0 = 0` goals
    split_ifs <;> rfl

/-- Witness for C10 at a concrete degenerate input (entry = stop = 50,
risk mode): the quantity is 0 and non-negative. -/
theorem compute_qty_total_nonneg_witness :
    0 ≤ compute_qty { sizing := "RISK", leverage := 10, allocPct := 15, riskPerTradePct := 2 }
        false none 10000 50 50 none ∧
    compute_qty { sizing := "RISK", leverage := 10, allocPct := 15, riskPerTradePct := 2 }
        false none 10000 50 50 none = 0 :=
  ⟨(compute_qty_total_nonneg _ false none 10000 50 50 none).1,
   (compute_qty_total_nonneg _ false none 10000 50 50 none).2.2
     (by decide) (by norm_num)⟩

/-! ## C3 — ML-probability risk scaling -/

/-- C3 (corrected): when the model probability `p` clears the threshold,
the per-trade risk percentage is scaled up only — never below the base —
proportionally to the threshold-normalised excess while unsaturated, and
it is capped at **2.0×** the base (the code computes
`base * (1 + min(1, 1.5*gain))`, line 2764), not at 2.5×. -/
theorem ml_risk_scale_up_only_capped_at_2x (base th p : ℚ)
    (hbase : 0 ≤ base) (hp : th < p) :
    ∃ r, ml_scaled_risk_pct base th p = some r ∧
      base ≤ r ∧ r ≤ 2 * base ∧
      ((1/1000000000 : ℚ) ≤ 1 - th → (3/2) * ((p - th) / (1 - th)) ≤ 1 →
        r = base * (1 + (3/2) * ((p - th) / (1 - th)))) := by
  unfold ml_scaled_risk_pct
  rw [if_neg (not_le.mpr hp)]
  refine ⟨_, rfl, ?_, ?_, ?_⟩
  · have hden : (0:ℚ) < max (1/1000000000) (1 - th) :=
      lt_max_of_lt_left (by norm_num)
    have hgain : 0 ≤ (p - th) / max (1/1000000000) (1 - th) :=
      div_nonneg (by linarith) hden.le
    have hmin : 0 ≤ min 1 ((3/2) * ((p - th) / max (1/1000000000) (1 - th))) :=
      le_min (by norm_num) (by positivity)
    nlinarith [hmin]
  · have hmin : min 1 ((3/2) * ((p - th) / max (1/1000000000) (1 - th))) ≤ 1 :=
      min_le_left _ _
    nlinarith [hmin]
  · intro hth hsat
    rw [max_eq_right hth, min_eq_right hsat]

/-- Counterexample for C3 as stated: with base riskPct 2 (the configured
`RISK_PER_TRADE_PCT`) and threshold 1/2, the maximal model probability
p = 1 yields a scaled risk of 4 = 2.0× base, strictly below the claimed
cap 2.5× base = 5 — the scaling saturates at 2×, so 2.5× is not the cap. -/
theorem ml_risk_cap_counterexample :
    ml_scaled_risk_pct RISK_PER_TRADE_PCT (1/2) 1 = some (2 * RISK_PER_TRADE_PCT) ∧
    (2 * RISK_PER_TRADE_PCT : ℚ) < (5/2) * RISK_PER_TRADE_PCT := by
  constructor <;> decide

/-- Witness for C3: the bounds instantiated at base = 2, threshold = 1/2,
p = 3/4 (an unsaturated probability, where the scaling is exactly
proportional). -/
theorem ml_risk_scale_witness :
    ∃ r, ml_scaled_risk_pct 2 (1/2) (3/4) = some r ∧
      (2:ℚ) ≤ r ∧ r ≤ 2 * 2 ∧
      ((1/1000000000 : ℚ) ≤ 1 - 1/2 → (3/2) * (((3:ℚ)/4 - 1/2) / (1 - 1/2)) ≤ 1 →
        r = 2 * (1 + (3/2) * (((3:ℚ)/4 - 1/2) / (1 - 1/2)))) :=
  ml_risk_scale_up_only_capped_at_2x 2 (1/2) (3/4) (by norm_num) (by norm_num)

/-! ## C6 — reconciliation backoff -/

/-- The backoff step never drops below the 60-second base. -/
theorem backoff_step_ge_base (n : ℕ) : 60 ≤ (backoffIter n).step := by
  induction n with
  | zero => norm_num [backoffIter, backoffInit]
  | succ n ih =>
    have hmax : (60:ℚ) ≤ NET_BACKOFF_MAX := by norm_num [NET_BACKOFF_MAX]
    simp only [backoffIter, backoffOnFailure]
    exact le_min hmax (by linarith)

/-- The backoff step never exceeds the 5-minute cap. -/
theorem backoff_step_le_max (n : ℕ) : (backoffIter n).step ≤ NET_BACKOFF_MAX := by
  cases n with
  | zero => norm_num [backoffIter, backoffInit, NET_BACKOFF_MAX]
  | succ n => exact min_le_left _ _

/-- C6: starting from the 60-second base, consecutive reconciliation
transport failures produce non-decreasing backoff windows, each the
previous one ×1.7 capped at 300 seconds, never above the 5-minute cap; a
single success resets the backoff to the initial state (base window 60s,
backoff timestamp cleared). -/
theorem backoff_windows_monotone_capped_reset :
    (backoffIter 0).step = 60 ∧
    (∀ n, (backoffIter n).step ≤ (backoffIter (n+1)).step) ∧
    (∀ n, (backoffIter (n+1)).step = min NET_BACKOFF_MAX ((backoffIter n).step * (17/10))) ∧
    (∀ n, (backoffIter n).step ≤ NET_BACKOFF_MAX) ∧
    (∀ b, backoffOnSuccess b = backoffInit) := by
  refine ⟨rfl, ?_, fun n => rfl, backoff_step_le_max, fun b => rfl⟩
  intro n
  have h1 := backoff_step_ge_base n
  have h2 := backoff_step_le_max n
  simp only [backoffIter, backoffOnFailure]
  exact le_min h2 (by linarith)

/-! ## C9 — settlement training label -/

/-- C9: for a settlement outcome with a net-percent value, the label is
computed from the R-multiple `r = net% / 0.0012`: positive when `r ≥ 1`,
negative when `r ≤ −1`, and otherwise exactly the sign of the raw cash
PnL (positive iff PnL > 0). -/
theorem record_close_label_spec (pnl m : ℚ) :
    (1 ≤ m / R_UNIT → record_close_label pnl (some m) = true) ∧
    (m / R_UNIT ≤ -1 → record_close_label pnl (some m) = false) ∧
    (-1 < m / R_UNIT → m / R_UNIT < 1 →
      (record_close_label pnl (some m) = true ↔ 0 < pnl)) := by
  unfold record_close_label r_like
  refine ⟨fun h => ?_, fun h => ?_, fun h1 h2 => ?_⟩
  · simp only [if_pos h]
  · rw [if_neg (by linarith), if_pos h]
  · rw [if_neg (by linarith), if_neg (by linarith)]
    exact decide_eq_true_iff

/-- Witness for C9: at net% fraction 0.0006 (r = 1/2) with positive cash
PnL, the label follows the PnL sign. -/
theorem record_close_label_spec_witness :
    record_close_label 1 (some (6/10000)) = true ↔ (0:ℚ) < 1 :=
  (record_close_label_spec 1 (6/10000)).2.2 (by norm_num [R_UNIT]) (by norm_num [R_UNIT])

/-! ## Settlement helper lemmas -/

theorem close_too_soon_false {which symbol : String} {minMs now : ℕ}
    {m : List ((String × String) × ℕ)}
    (h : ¬ (now - lookupNat m (strUpper which, strUpper symbol) < minMs)) :
    close_too_soon which symbol minMs now m
      = (false, ((strUpper which, strUpper symbol), now) :: m) := by
  simp only [close_too_soon, if_neg h]

theorem close_too_soon_true {which symbol : String} {minMs now : ℕ}
    {m : List ((String × String) × ℕ)}
    (h : now - lookupNat m (strUpper which, strUpper symbol) < minMs) :
    close_too_soon which symbol minMs now m = (true, m) := by
  simp only [close_too_soon, if_pos h]

theorem lookupNat_cons_self (k : String × String) (v : ℕ)
    (m : List ((String × String) × ℕ)) : lookupNat ((k, v) :: m) k = v := by
  simp [lookupNat, List.lookup]

theorem getSym_setSym_self (m : List (String × SymState)) (k : String)
    (v : SymState) : getSym (setSym m k v) k = v := by
  induction m with
  | nil => simp [setSym, getSym, List.lookup]
  | cons kv rest ih =>
    by_cases h : kv.1 = k
    · simp [setSym, h, getSym, List.lookup]
    · have hne : (k == kv.1) = false := by
        simp [beq_eq_false_iff_ne]
        exact fun he => h he.symm
      simpa [setSym, h, getSym, List.lookup, hne] using ih

theorem getPos_setPos_none (st : SymState) (which : String) :
    getPos (setPos st which none) which = none := by
  unfold getPos setPos
  split_ifs <;> rfl

/-- Projection of `settleCore` onto the settled account: exactly the
ledger update applied to the previous account value. -/
theorem settleCore_getAccount (env : CloseEnv) (symbol reason : String)
    (px0 : ℚ) (which : String) (skip : Bool) (p : Position) (uid : String)
    (s : EngineState) :
    getAccount (settleCore env symbol reason px0 which skip p uid s) which =
      applyLedger which (settleNetPnl env which skip px0 p)
        (settleRecord env symbol reason px0 which skip p uid)
        (getAccount s which) := by
  unfold settleCore getAccount setAccount
  split_ifs <;> rfl

/-- `settleCore` leaves the other account untouched. -/
theorem settleCore_other_account (env : CloseEnv) (symbol reason : String)
    (px0 : ℚ) (which : String) (skip : Bool) (p : Position) (uid : String)
    (s : EngineState) :
    (strUpper which = "LIVE" →
      (settleCore env symbol reason px0 which skip p uid s).accSim = s.accSim) ∧
    (strUpper which ≠ "LIVE" →
      (settleCore env symbol reason px0 which skip p uid s).accLive = s.accLive) := by
  constructor <;> intro h <;> unfold settleCore setAccount <;>
    split_ifs <;> first | rfl | exact absurd ‹strUpper which = "LIVE"› h

/-- `settleCore` does not touch the debounce-timestamp map. -/
theorem settleCore_lastCloseTs (env : CloseEnv) (symbol reason : String)
    (px0 : ℚ) (which : String) (skip : Bool) (p : Position) (uid : String)
    (s : EngineState) :
    (settleCore env symbol reason px0 which skip p uid s).lastCloseTs
      = s.lastCloseTs := by
  unfold settleCore setAccount
  split_ifs <;> rfl

theorem applyLedger_trades (which : String) (net : ℚ) (tr : TradeRecord)
    (a : Account) : (applyLedger which net tr a).trades = a.trades ++ [tr] := by
  unfold applyLedger
  split_ifs <;> rfl

/-! ## C7 — ledger-update frame -/

/-- C7: every settlement that reaches the ledger-update step accrues the
net PnL into the account's `total_pnl`, for the Live and the Sim account
alike; the spendable balance and the daily PnL move by the net PnL only
when the settled account is Sim, and a Live settlement leaves Live's
balance and daily PnL unchanged. -/
theorem settlement_ledger_update_frame (env : CloseEnv) (symbol reason : String)
    (px0 : ℚ) (which : String) (skip : Bool) (p : Position) (uid : String)
    (s : EngineState) :
    (getAccount (settleCore env symbol reason px0 which skip p uid s) which).total_pnl
        = (getAccount s which).total_pnl + settleNetPnl env which skip px0 p ∧
    (getAccount (settleCore env symbol reason px0 which skip p uid s) which).balance
        = (if strUpper which = "SIM" then
            (getAccount s which).balance + settleNetPnl env which skip px0 p
          else (getAccount s which).balance) ∧
    (getAccount (settleCore env symbol reason px0 which skip p uid s) which).daily_pnl
        = (if strUpper which = "SIM" then
            (getAccount s which).daily_pnl + settleNetPnl env which skip px0 p
          else (getAccount s which).daily_pnl) ∧
    (strUpper which = "LIVE" →
      (getAccount (settleCore env symbol reason px0 which skip p uid s) which).balance
          = (getAccount s which).balance ∧
      (getAccount (settleCore env symbol reason px0 which skip p uid s) which).daily_pnl
          = (getAccount s which).daily_pnl) := by
  rw [settleCore_getAccount]
  unfold applyLedger
  by_cases h : strUpper which = "SIM"
  · refine ⟨by simp [h], by simp [h], by simp [h], fun hl => ?_⟩
    rw [hl] at h
    exact absurd h (by decide)
  · exact ⟨by simp [h], by simp [h], by simp [h], fun _ => ⟨by simp [h], by simp [h]⟩⟩

/-! ## Evaluation lemmas for `close_position_one` -/

/-- A call inside the 600ms debounce window returns with the state
untouched (lines 3064-3066). -/
theorem close_position_one_debounced (env : CloseEnv) (symbol reason : String)
    (px0 : ℚ) (which : String) (skip : Bool) (s : EngineState)
    (hdb : env.now - lookupNat s.lastCloseTs (strUpper which, strUpper symbol) < 600) :
    close_position_one env symbol reason px0 which skip s = s := by
  simp only [close_position_one, close_too_soon_true hdb]
  simp

/-- An admitted call on a fresh position runs the settlement body on the
state carrying the recorded debounce timestamp. -/
theorem close_position_one_settles (env : CloseEnv) (symbol reason : String)
    (px0 : ℚ) (which : String) (skip : Bool) (s : EngineState) (p : Position)
    (hpos : getPos (getSym s.symap symbol) which = some p)
    (hfresh : effUid which symbol p ∉ s.trainedUids)
    (hdb : ¬ (env.now - lookupNat s.lastCloseTs (strUpper which, strUpper symbol) < 600)) :
    close_position_one env symbol reason px0 which skip s
      = settleCore env symbol reason px0 which skip p (effUid which symbol p)
          { s with lastCloseTs :=
              ((strUpper which, strUpper symbol), env.now) :: s.lastCloseTs } := by
  simp only [close_position_one, close_too_soon_false hdb, hpos]
  simp [hfresh]

/-- An admitted call whose stored uid is already settled and whose
position has zero qty or entry performs only the local cleanup
(lines 3077-3079). -/
theorem close_position_one_dup_cleanup (env : CloseEnv) (symbol reason : String)
    (px0 : ℚ) (which : String) (skip : Bool) (s : EngineState) (p : Position)
    (hpos : getPos (getSym s.symap symbol) which = some p)
    (hdup : effUid which symbol p ∈ s.trainedUids)
    (hstale : ¬ (p.qty ≠ 0 ∧ p.entry ≠ 0))
    (hdb : ¬ (env.now - lookupNat s.lastCloseTs (strUpper which, strUpper symbol) < 600)) :
    close_position_one env symbol reason px0 which skip s
      = { s with
          lastCloseTs := ((strUpper which, strUpper symbol), env.now) :: s.lastCloseTs
          symap := setSym s.symap symbol (setPos (getSym s.symap symbol) which none) } := by
  simp only [close_position_one, close_too_soon_false hdb, hpos]
  simp [hdup, hstale]

/-- An admitted call with no open position returns after recording only
the debounce timestamp (lines 3064-3068). -/
theorem close_position_one_no_position (env : CloseEnv) (symbol reason : String)
    (px0 : ℚ) (which : String) (skip : Bool) (s : EngineState)
    (hpos : getPos (getSym s.symap symbol) which = none)
    (hdb : ¬ (env.now - lookupNat s.lastCloseTs (strUpper which, strUpper symbol) < 600)) :
    close_position_one env symbol reason px0 which skip s
      = { s with lastCloseTs :=
            ((strUpper which, strUpper symbol), env.now) :: s.lastCloseTs } := by
  simp only [close_position_one, close_too_soon_false hdb, hpos]
  simp

/-! ## Concrete states for witnesses and counterexamples -/

def exAcc : Account :=
  { balance := 10000, daily_start_equity := some 10000, daily_pnl := 0
    total_pnl := 0, trades := [] }

def exPos : Position :=
  { side := "LONG", qty := 1, entry := 100, sl := some 95, tp := some 110
    opened_ts := some 0, risk_R := some 5, pos_uid := some "U1" }

/-- A stale position image: already-settled uid, zeroed qty/entry. -/
def exPosStale : Position :=
  { side := "LONG", qty := 0, entry := 0, sl := none, tp := none
    opened_ts := some 0, risk_R := none, pos_uid := some "U1" }

def exEnv : CloseEnv := { now := 1000000, liveFillPx := none, liveFee := none }

/-- One tracked symbol with an open SIM position, nothing settled yet. -/
def exStateFresh : EngineState :=
  { accLive := exAcc, accSim := exAcc
    symap := [("BTCUSDT", { position_live := none, position_sim := some exPos })]
    trainedUids := [], lastCloseTs := [], openInflight := []
    mlCloses := [], lossStreak := [], suspendedSyms := [] }

/-- The same position, but its uid is already in the settled-ids set. -/
def exStateDup : EngineState :=
  { exStateFresh with trainedUids := ["U1"] }

/-- A stale already-settled position (qty = entry = 0). -/
def exStateStale : EngineState :=
  { exStateFresh with
    symap := [("BTCUSDT", { position_live := none, position_sim := some exPosStale })]
    trainedUids := ["U1"] }

/-- A tracked symbol with no open position on either account. -/
def exStateEmpty : EngineState :=
  { exStateFresh with
    symap := [("BTCUSDT", { position_live := none, position_sim := none })] }

/-- Witness for C7: a concrete LIVE settlement leaves LIVE's balance
unchanged. -/
theorem settlement_ledger_update_frame_witness :
    (getAccount (settleCore exEnv "BTCUSDT" "tp" 105 "LIVE" false exPos "U1"
        exStateFresh) "LIVE").balance
      = (getAccount exStateFresh "LIVE").balance :=
  ((settlement_ledger_update_frame exEnv "BTCUSDT" "tp" 105 "LIVE" false exPos "U1"
      exStateFresh).2.2.2 (by decide)).1

/-! ## C2 — debounced close produces exactly one ledger record -/

/-- C2: for an open position not yet settled, a close call outside the
debounce window appends exactly one trade record to the settled account
(and none to the other account), and every further close call for the
same (account, symbol) within 600ms of it returns with the state
entirely unchanged — no second record. -/
theorem close_debounce_single_ledger_record (env1 : CloseEnv)
    (symbol reason : String) (px0 : ℚ) (which : String) (skip : Bool)
    (s : EngineState) (p : Position)
    (hpos : getPos (getSym s.symap symbol) which = some p)
    (hfresh : effUid which symbol p ∉ s.trainedUids)
    (hdb : ¬ (env1.now - lookupNat s.lastCloseTs (strUpper which, strUpper symbol) < 600)) :
    (getAccount (close_position_one env1 symbol reason px0 which skip s) which).trades
        = (getAccount s which).trades
          ++ [settleRecord env1 symbol reason px0 which skip p (effUid which symbol p)] ∧
    (strUpper which = "LIVE" →
      (close_position_one env1 symbol reason px0 which skip s).accSim = s.accSim) ∧
    (strUpper which ≠ "LIVE" →
      (close_position_one env1 symbol reason px0 which skip s).accLive = s.accLive) ∧
    (∀ env2 : CloseEnv, ∀ reason2 : String, ∀ px2 : ℚ, ∀ skip2 : Bool,
      env2.now - env1.now < 600 →
        close_position_one env2 symbol reason2 px2 which skip2
            (close_position_one env1 symbol reason px0 which skip s)
          = close_position_one env1 symbol reason px0 which skip s) := by
  have hrun := close_position_one_settles env1 symbol reason px0 which skip s p
    hpos hfresh hdb
  refine ⟨?_, ?_, ?_, ?_⟩
  · rw [hrun, settleCore_getAccount, applyLedger_trades]
    by_cases h : strUpper which = "LIVE" <;> simp [getAccount, h]
  · intro h
    rw [hrun]
    exact (settleCore_other_account env1 symbol reason px0 which skip p _ _).1 h
  · intro h
    rw [hrun]
    exact (settleCore_other_account env1 symbol reason px0 which skip p _ _).2 h
  · intro env2 reason2 px2 skip2 h2
    apply close_position_one_debounced
    rw [hrun, settleCore_lastCloseTs, lookupNat_cons_self]
    exact h2

/-- Witness for C2: the concrete fresh SIM position settles into exactly
one appended trade record. -/
theorem close_debounce_single_ledger_record_witness :
    (getAccount (close_position_one exEnv "BTCUSDT" "tp" 105 "SIM" false
        exStateFresh) "SIM").trades
      = (getAccount exStateFresh "SIM").trades
        ++ [settleRecord exEnv "BTCUSDT" "tp" 105 "SIM" false exPos
              (effUid "SIM" "BTCUSDT" exPos)] :=
  (close_debounce_single_ledger_record exEnv "BTCUSDT" "tp" 105 "SIM" false
    exStateFresh exPos (by decide) (by decide) (by decide)).1

/-! ## C1 — uid dedup -/

/-- Counterexample for C1 as stated: `exStateDup` holds a position whose
uid "U1" is already in the settled-ids set but whose qty and entry are
nonzero; the close call does NOT stop at local cleanup — it re-mints a
uid and performs a full second settlement: a second ledger record is
appended, balance and totalPnl change, and a second training hand-off
happens. -/
theorem dup_uid_resettles_counterexample :
    "U1" ∈ exStateDup.trainedUids ∧
    getPos (getSym exStateDup.symap "BTCUSDT") "SIM" = some exPos ∧
    exPos.pos_uid = some "U1" ∧
    (close_position_one exEnv "BTCUSDT" "tp" 105 "SIM" false exStateDup).accSim.trades.length = 1 ∧
    exStateDup.accSim.trades.length = 0 ∧
    (close_position_one exEnv "BTCUSDT" "tp" 105 "SIM" false exStateDup).accSim.balance
      ≠ exStateDup.accSim.balance ∧
    (close_position_one exEnv "BTCUSDT" "tp" 105 "SIM" false exStateDup).accSim.total_pnl
      ≠ exStateDup.accSim.total_pnl ∧
    (close_position_one exEnv "BTCUSDT" "tp" 105 "SIM" false exStateDup).mlCloses.length = 1 ∧
    exStateDup.mlCloses.length = 0 := by
  refine ⟨by decide, by decide, by decide, by decide, by decide, by decide,
    by decide, by decide, by decide⟩

/-- C1 (corrected): a settlement call on a position whose uid is already
in the settled-ids set performs only local cleanup (clearing the
position) — no ledger record, no account change, no training hand-off,
no dedup-set growth — **provided** the stored position has zero qty or
zero entry; when both are nonzero the code instead mints a fresh uid and
runs a full second settlement (line 3074-3075). -/
theorem dup_uid_cleanup_only_when_stale (env : CloseEnv) (symbol reason : String)
    (px0 : ℚ) (which : String) (skip : Bool) (s : EngineState) (p : Position)
    (hpos : getPos (getSym s.symap symbol) which = some p)
    (hdup : effUid which symbol p ∈ s.trainedUids)
    (hstale : p.qty = 0 ∨ p.entry = 0)
    (hdb : ¬ (env.now - lookupNat s.lastCloseTs (strUpper which, strUpper symbol) < 600)) :
    (close_position_one env symbol reason px0 which skip s).accLive = s.accLive ∧
    (close_position_one env symbol reason px0 which skip s).accSim = s.accSim ∧
    (close_position_one env symbol reason px0 which skip s).mlCloses = s.mlCloses ∧
    (close_position_one env symbol reason px0 which skip s).trainedUids = s.trainedUids ∧
    (close_position_one env symbol reason px0 which skip s).openInflight = s.openInflight ∧
    getPos (getSym (close_position_one env symbol reason px0 which skip s).symap symbol)
        which = none ∧
    (close_position_one env symbol reason px0 which skip s).lastCloseTs
        = ((strUpper which, strUpper symbol), env.now) :: s.lastCloseTs := by
  have hstale2 : ¬ (p.qty ≠ 0 ∧ p.entry ≠ 0) := by
    rcases hstale with h | h
    · exact fun hc => hc.1 h
    · exact fun hc => hc.2 h
  have hrun := close_position_one_dup_cleanup env symbol reason px0 which skip s p
    hpos hdup hstale2 hdb
  rw [hrun]
  refine ⟨rfl, rfl, rfl, rfl, rfl, ?_, rfl⟩
  rw [getSym_setSym_self]
  exact getPos_setPos_none _ _

/-- Witness for C1 (amended): the stale dup close on `exStateStale`
clears the position and changes nothing else. -/
theorem dup_uid_cleanup_only_when_stale_witness :
    (close_position_one exEnv "BTCUSDT" "dup" 105 "SIM" false exStateStale).accSim
        = exStateStale.accSim ∧
    getPos (getSym (close_position_one exEnv "BTCUSDT" "dup" 105 "SIM" false
        exStateStale).symap "BTCUSDT") "SIM" = none :=
  ⟨(dup_uid_cleanup_only_when_stale exEnv "BTCUSDT" "dup" 105 "SIM" false
      exStateStale exPosStale (by decide) (by decide) (Or.inl (by decide))
      (by decide)).2.1,
   (dup_uid_cleanup_only_when_stale exEnv "BTCUSDT" "dup" 105 "SIM" false
      exStateStale exPosStale (by decide) (by decide) (Or.inl (by decide))
      (by decide)).2.2.2.2.2.1⟩

/-! ## C8 — close with no open position -/

/-- Counterexample for C8 as stated: closing a (SIM, BTCUSDT) pair with
no open position is NOT a complete no-op — the call records the close
timestamp in the debounce map, an observable change (it suppresses the
next close within 600ms). -/
theorem close_no_position_not_noop_counterexample :
    getPos (getSym exStateEmpty.symap "BTCUSDT") "SIM" = none ∧
    close_position_one exEnv "BTCUSDT" "manual" 105 "SIM" false exStateEmpty
      ≠ exStateEmpty ∧
    lookupNat (close_position_one exEnv "BTCUSDT" "manual" 105 "SIM" false
        exStateEmpty).lastCloseTs ("SIM", "BTCUSDT") = 1000000 ∧
    lookupNat exStateEmpty.lastCloseTs ("SIM", "BTCUSDT") = 0 := by
  refine ⟨by decide, by decide, by decide, by decide⟩

/-- C8 (corrected): closing an (account, symbol) with no open position
creates no ledger record, changes no account field and no position, and
leaves every other engine structure unchanged — except that the debounce
map records the call timestamp (when the call itself is not debounced). -/
theorem close_no_position_frame (env : CloseEnv) (symbol reason : String)
    (px0 : ℚ) (which : String) (skip : Bool) (s : EngineState)
    (hpos : getPos (getSym s.symap symbol) which = none) :
    (close_position_one env symbol reason px0 which skip s).accLive = s.accLive ∧
    (close_position_one env symbol reason px0 which skip s).accSim = s.accSim ∧
    (close_position_one env symbol reason px0 which skip s).symap = s.symap ∧
    (close_position_one env symbol reason px0 which skip s).trainedUids = s.trainedUids ∧
    (close_position_one env symbol reason px0 which skip s).openInflight = s.openInflight ∧
    (close_position_one env symbol reason px0 which skip s).mlCloses = s.mlCloses ∧
    (close_position_one env symbol reason px0 which skip s).lossStreak = s.lossStreak ∧
    (close_position_one env symbol reason px0 which skip s).suspendedSyms = s.suspendedSyms ∧
    (close_position_one env symbol reason px0 which skip s).lastCloseTs
        = (close_too_soon which symbol 600 env.now s.lastCloseTs).2 := by
  by_cases hdb : env.now - lookupNat s.lastCloseTs (strUpper which, strUpper symbol) < 600
  · rw [close_position_one_debounced env symbol reason px0 which skip s hdb,
      close_too_soon_true hdb]
    exact ⟨rfl, rfl, rfl, rfl, rfl, rfl, rfl, rfl, rfl⟩
  · rw [close_position_one_no_position env symbol reason px0 which skip s hpos hdb,
      close_too_soon_false hdb]
    exact ⟨rfl, rfl, rfl, rfl, rfl, rfl, rfl, rfl, rfl⟩

/-- Witness for C8 (amended): the concrete no-position close on
`exStateEmpty` leaves both accounts and the symbol map unchanged. -/
theorem close_no_position_frame_witness :
    (close_position_one exEnv "BTCUSDT" "manual" 105 "SIM" false exStateEmpty).accSim
        = exStateEmpty.accSim ∧
    (close_position_one exEnv "BTCUSDT" "manual" 105 "SIM" false exStateEmpty).symap
        = exStateEmpty.symap :=
  ⟨(close_no_position_frame exEnv "BTCUSDT" "manual" 105 "SIM" false exStateEmpty
      (by decide)).2.1,
   (close_no_position_frame exEnv "BTCUSDT" "manual" 105 "SIM" false exStateEmpty
      (by decide)).2.2.1⟩

/-! ## C5 — persistence round-trip -/

theorem getSym_cons (k0 : String) (v : SymState) (m : List (String × SymState))
    (k : String) :
    getSym ((k0, v) :: m) k = if k = k0 then v else getSym m k := by
  by_cases h : k = k0
  · simp [getSym, List.lookup, h]
  · simp [getSym, List.lookup, h, beq_eq_false_iff_ne.mpr h]

theorem symap_lookup_mem (m : List (String × SymState)) (k : String)
    (v : SymState) (h : m.lookup k = some v) : (k, v) ∈ m := by
  induction m with
  | nil => simp [List.lookup] at h
  | cons kv rest ih =>
    obtain ⟨k0, v0⟩ := kv
    by_cases hk : k = k0
    · subst hk
      simp [List.lookup] at h
      subst h
      exact List.mem_cons_self _ _
    · simp [List.lookup, beq_eq_false_iff_ne.mpr hk] at h
      exact List.mem_cons_of_mem _ (ih h)

theorem symap_mem_lookup (m : List (String × SymState)) (k : String)
    (v : SymState) (hnd : (m.map Prod.fst).Nodup) (h : (k, v) ∈ m) :
    m.lookup k = some v := by
  induction m with
  | nil => simp at h
  | cons kv rest ih =>
    obtain ⟨k0, v0⟩ := kv
    simp only [List.map_cons, List.nodup_cons] at hnd
    rcases List.mem_cons.mp h with he | ht
    · injection he with h1 h2
      subst h1
      subst h2
      simp [List.lookup]
    · have hk : k ≠ k0 := by
        rintro rfl
        exact hnd.1 (List.mem_map.mpr ⟨(k, v), ht, rfl⟩)
      simp [List.lookup, beq_eq_false_iff_ne.mpr hk]
      exact ih hnd.2 ht

theorem getSym_setSym_ne (m : List (String × SymState)) (k k1 : String)
    (v : SymState) (h : k1 ≠ k) : getSym (setSym m k v) k1 = getSym m k1 := by
  induction m with
  | nil =>
    show getSym [(k, v)] k1 = getSym [] k1
    rw [getSym_cons, if_neg h]
  | cons kv rest ih =>
    obtain ⟨k0, v0⟩ := kv
    by_cases hk : k0 = k
    · subst hk
      have hs : setSym ((k0, v0) :: rest) k0 v = (k0, v) :: rest := by
        simp [setSym]
      rw [hs, getSym_cons, getSym_cons, if_neg h, if_neg h]
    · have hs : setSym ((k0, v0) :: rest) k v = (k0, v0) :: setSym rest k v := by
        simp [setSym, hk]
      rw [hs, getSym_cons, getSym_cons, ih]

theorem restorePositions_cons (m : List (String × SymState))
    (kv : String × SimSnapPos) (ps : List (String × SimSnapPos)) :
    restorePositions m (kv :: ps)
      = restorePositions
          (setSym m kv.1
            { getSym m kv.1 with position_sim := some (snapPosToPosition kv.2) })
          ps := rfl

theorem restorePositions_getSym_notmem (ps : List (String × SimSnapPos))
    (m : List (String × SymState)) (sym : String)
    (h : sym ∉ ps.map Prod.fst) :
    getSym (restorePositions m ps) sym = getSym m sym := by
  induction ps generalizing m with
  | nil => rfl
  | cons kv rest ih =>
    simp only [List.map_cons, List.mem_cons] at h
    push_neg at h
    rw [restorePositions_cons, ih _ h.2, getSym_setSym_ne _ _ _ _ h.1]

theorem restorePositions_getSym_mem (ps : List (String × SimSnapPos))
    (m : List (String × SymState)) (sym : String) (sp : SimSnapPos)
    (hnd : (ps.map Prod.fst).Nodup) (h : (sym, sp) ∈ ps) :
    (getSym (restorePositions m ps) sym).position_sim
      = some (snapPosToPosition sp) := by
  induction ps generalizing m with
  | nil => simp at h
  | cons kv rest ih =>
    obtain ⟨k0, sp0⟩ := kv
    simp only [List.map_cons, List.nodup_cons] at hnd
    rcases List.mem_cons.mp h with he | ht
    · obtain ⟨rfl, rfl⟩ := Prod.mk.injEq .. ▸ he
      rw [restorePositions_cons,
        restorePositions_getSym_notmem rest _ sym hnd.1,
        getSym_setSym_self]
    · have hk : k0 ≠ sym := by
        rintro rfl
        exact hnd.1 (List.mem_map.mpr ⟨(k0, sp), ht, rfl⟩)
      rw [restorePositions_cons]
      exact ih _ hnd.2 ht

theorem snap_keys_sublist (m : List (String × SymState)) :
    ((m.filterMap fun kv =>
        kv.2.position_sim.map fun q => (kv.1, snapView q)).map Prod.fst).Sublist
      (m.map Prod.fst) := by
  induction m with
  | nil => simp
  | cons kv rest ih =>
    cases hps : kv.2.position_sim with
    | none =>
      simp only [List.filterMap_cons, hps, Option.map_none, List.map_cons]
      exact ih.cons _
    | some p =>
      simp only [List.filterMap_cons, hps, Option.map_some, List.map_cons]
      exact ih.cons₂ _

theorem mem_snap_positions (m : List (String × SymState)) (sym : String)
    (st : SymState) (p : Position) (hm : (sym, st) ∈ m)
    (hp : st.position_sim = some p) :
    (sym, snapView p) ∈
      m.filterMap fun kv => kv.2.position_sim.map fun q => (kv.1, snapView q) :=
  List.mem_filterMap.mpr ⟨(sym, st), hm, by simp [hp]⟩

theorem snap_keys_mem (m : List (String × SymState)) (sym : String)
    (hnd : (m.map Prod.fst).Nodup)
    (h : sym ∈ (m.filterMap fun kv =>
        kv.2.position_sim.map fun q => (kv.1, snapView q)).map Prod.fst) :
    (getSym m sym).position_sim ≠ none := by
  obtain ⟨⟨sym2, sp⟩, hmem, heq⟩ := List.mem_map.mp h
  obtain ⟨kv, hkv, hf⟩ := List.mem_filterMap.mp hmem
  cases hps : kv.2.position_sim with
  | none =>
    rw [hps] at hf
    exact absurd hf (by simp)
  | some p =>
    rw [hps] at hf
    have hf2 : (kv.1, snapView p) = (sym2, sp) := by simpa using hf
    have hk : kv.1 = sym := by
      have h1 : kv.1 = sym2 := congrArg Prod.fst hf2
      simpa using h1.trans heq
    have hlk : m.lookup sym = some kv.2 := by
      rw [← hk]
      exact symap_mem_lookup m kv.1 kv.2 hnd (by simpa using hkv)
    simp [getSym, hlk, hps]

theorem truthyOpt_idem (o : Option ℚ) : truthyOpt (truthyOpt o) = truthyOpt o := by
  cases o with
  | none => rfl
  | some x => by_cases h : x = 0 <;> simp [truthyOpt, h]

theorem truthyOpt_eq_self {o : Option ℚ} (h : o ≠ some 0) : truthyOpt o = o := by
  cases o with
  | none => rfl
  | some x =>
    have hx : x ≠ 0 := fun hx => h (by rw [hx])
    simp [truthyOpt, hx]

set_option maxRecDepth 4000 in
/-- C5 (corrected): snapshotting and restoring the SIM state reproduces
the account's balance, dailyStartEquity, dailyPnl and totalPnl exactly,
restores exactly the retained trade history (the most recent 500 trades,
hence the full history whenever at most 500 are held), and reproduces
every open SIM position's (side, qty, entry, stop, target) view —
provided the dailyStartEquity is set and nonzero and no stored
stop/target is exactly 0 (the snapshot maps a falsy dailyStartEquity to
the balance and a stop/target of exactly 0.0 to None, which do not
round-trip; both failures are exhibited by the counterexample). -/
theorem sim_roundtrip_restores_state (now : ℕ) (s : EngineState) (d : ℚ)
    (hdse : s.accSim.daily_start_equity = some d) (hd0 : d ≠ 0)
    (hnd : (s.symap.map Prod.fst).Nodup)
    (hsl : ∀ kv ∈ s.symap, ∀ p, kv.2.position_sim = some p →
      p.sl ≠ some 0 ∧ p.tp ≠ some 0) :
    (restore_sim_state (snapshot_sim_state now s) s).accSim.balance
        = s.accSim.balance ∧
    (restore_sim_state (snapshot_sim_state now s) s).accSim.daily_start_equity
        = s.accSim.daily_start_equity ∧
    (restore_sim_state (snapshot_sim_state now s) s).accSim.daily_pnl
        = s.accSim.daily_pnl ∧
    (restore_sim_state (snapshot_sim_state now s) s).accSim.total_pnl
        = s.accSim.total_pnl ∧
    (restore_sim_state (snapshot_sim_state now s) s).accSim.trades
        = takeLast 500 s.accSim.trades ∧
    (s.accSim.trades.length ≤ 500 →
      (restore_sim_state (snapshot_sim_state now s) s).accSim.trades
        = s.accSim.trades) ∧
    ∀ sym, simPosView (restore_sim_state (snapshot_sim_state now s) s) sym
        = simPosView s sym := by
  have hdse2 : (snapshot_sim_state now s).daily_start_equity = d := by
    simp [snapshot_sim_state, hdse, hd0]
  refine ⟨rfl, ?_, rfl, rfl, rfl, ?_, ?_⟩
  · show some ((snapshot_sim_state now s).daily_start_equity)
        = s.accSim.daily_start_equity
    rw [hdse, hdse2]
  · intro htr
    show takeLast 500 s.accSim.trades = s.accSim.trades
    simp [takeLast, Nat.sub_eq_zero_of_le htr]
  · intro sym
    cases hx : (getSym s.symap sym).position_sim with
    | none =>
      have hnotin : sym ∉ ((snapshot_sim_state now s).positions).map Prod.fst := by
        intro hin
        exact snap_keys_mem s.symap sym hnd hin hx
      simp only [simPosView, restore_sim_state]
      rw [restorePositions_getSym_notmem _ _ _ hnotin]
    | some p =>
      cases hlo : s.symap.lookup sym with
      | none => simp [getSym, hlo, SymState.empty] at hx
      | some st =>
        have hst : getSym s.symap sym = st := by simp [getSym, hlo]
        have hmem : (sym, st) ∈ s.symap := symap_lookup_mem _ _ _ hlo
        have hp : st.position_sim = some p := hst ▸ hx
        have hps : (sym, snapView p) ∈ (snapshot_sim_state now s).positions :=
          mem_snap_positions s.symap sym st p hmem hp
        have hndps : (((snapshot_sim_state now s).positions).map Prod.fst).Nodup :=
          List.Nodup.sublist (snap_keys_sublist s.symap) hnd
        have hres := restorePositions_getSym_mem
          ((snapshot_sim_state now s).positions) s.symap sym (snapView p) hndps hps
        obtain ⟨hsl0, htp0⟩ := hsl (sym, st) hmem p hp
        simp only [simPosView, restore_sim_state]
        rw [hres, hx]
        simp [snapPosToPosition, snapView, truthyOpt_idem,
          truthyOpt_eq_self hsl0, truthyOpt_eq_self htp0]

/-- A fresh SIM account whose `daily_start_equity` was never initialised
(`None`, as `Account.__init__` leaves it, line 1543). -/
def exStateNoDse : EngineState :=
  { exStateFresh with accSim := { exAcc with daily_start_equity := none } }

/-- An open SIM position whose stop is stored as exactly 0.0. -/
def exPosZeroStop : Position :=
  { side := "LONG", qty := 1, entry := 100, sl := some 0, tp := some 110
    opened_ts := some 0, risk_R := some 100, pos_uid := some "U2" }

def exStateZeroStop : EngineState :=
  { exStateFresh with
    symap := [("BTCUSDT",
      { position_live := none, position_sim := some exPosZeroStop })] }

/-- Counterexample for C5 as stated, exhibiting both failure modes of
the round trip.  (1) On an account whose dailyStartEquity is unset, the
snapshot substitutes the balance (line 1594
`daily_start_equity or balance`), so the round trip yields `10000`
instead of the original unset value.  (2) On a position whose stop is
stored as exactly 0.0, the snapshot's truthiness test (lines 1586-1587)
turns it into `None`, so the restored (side, qty, entry, stop, target)
view differs from the original. -/
theorem sim_roundtrip_counterexample :
    exStateNoDse.accSim.daily_start_equity = none ∧
    (restore_sim_state (snapshot_sim_state 0 exStateNoDse)
        exStateNoDse).accSim.daily_start_equity = some 10000 ∧
    simPosView exStateZeroStop "BTCUSDT"
        = some ("LONG", 1, 100, some 0, some 110) ∧
    simPosView (restore_sim_state (snapshot_sim_state 0 exStateZeroStop)
        exStateZeroStop) "BTCUSDT"
        = some ("LONG", 1, 100, none, some 110) := by
  refine ⟨by decide, by decide, by decide, by decide⟩

/-- Witness for C5 (amended): the concrete one-position SIM state
round-trips to the identical account fields, trade history and position
view. -/
theorem sim_roundtrip_restores_state_witness :
    (restore_sim_state (snapshot_sim_state 0 exStateFresh) exStateFresh).accSim.balance
        = exStateFresh.accSim.balance ∧
    (restore_sim_state (snapshot_sim_state 0 exStateFresh) exStateFresh).accSim.daily_start_equity
        = exStateFresh.accSim.daily_start_equity ∧
    (restore_sim_state (snapshot_sim_state 0 exStateFresh) exStateFresh).accSim.trades
        = exStateFresh.accSim.trades ∧
    simPosView (restore_sim_state (snapshot_sim_state 0 exStateFresh) exStateFresh)
        "BTCUSDT" = simPosView exStateFresh "BTCUSDT" := by
  have h := sim_roundtrip_restores_state 0 exStateFresh 10000 (by decide)
    (by decide) (by decide)
    (by
      intro kv hkv p hp
      rcases List.mem_singleton.mp hkv with rfl
      simp only [Option.some.injEq] at hp
      subst hp
      exact ⟨by decide, by decide⟩)
  exact ⟨h.1, h.2.1, h.2.2.2.2.2.1 (by decide), h.2.2.2.2.2.2 "BTCUSDT"⟩

end Crypto
